import Mathlib

/-!
Verification development for the Payevo PIX backend (`src/server.js` and its
revisions under `src/unnamed/`).  The definitions below are a shallow
embedding of the request/response normalization logic of the backend:
JavaScript strings become `String`, JSON values become the `Json` inductive,
JS numbers become `ℚ`, and `JSON.parse` becomes the executable `jsonParse`
below (strict JSON grammar, as implemented by the JS builtin).
-/

/-- JSON values as produced by `JSON.parse`.  JS numbers are modelled as
rationals (`JSON.parse` never produces `NaN`/`Infinity`). -/
inductive Json where
  | null : Json
  | bool : Bool → Json
  | num : ℚ → Json
  | str : String → Json
  | arr : List Json → Json
  | obj : List (String × Json) → Json

/-- The whitespace class of the JS regex `\s` restricted to ASCII
(space, tab, newline, carriage return, vertical tab, form feed).
The Unicode whitespace code points also matched by `\s` do not occur in
any provider response modelled here. -/
def isJsWs (c : Char) : Bool :=
  c = ' ' || c = '\t' || c = '\n' || c = '\r' || c = '\x0b' || c = '\x0c'

/-- `String.prototype.trim`: drop leading and trailing whitespace. -/
def jTrim (s : String) : String :=
  String.mk (((s.data.dropWhile isJsWs).reverse.dropWhile isJsWs).reverse)

/-- The whitespace accepted between tokens by strict JSON
(space, tab, newline, carriage return). -/
def isJsonWs (c : Char) : Bool :=
  c = ' ' || c = '\t' || c = '\n' || c = '\r'

/-- Drop leading JSON whitespace. -/
def jSkipWs (cs : List Char) : List Char :=
  match cs with
  | c :: rest => if isJsonWs c then jSkipWs rest else c :: rest
  | [] => []

/-- Numeric value of a digit string, most significant digit first. -/
def digitsVal (cs : List Char) : Nat :=
  cs.foldl (fun n c => n * 10 + (c.toNat - 48)) 0

/-- Value of an escape character after a backslash in a JSON string. -/
def escChar (c : Char) : Option Char :=
  if c = '"' then some '"'
  else if c = '\\' then some '\\'
  else if c = '/' then some '/'
  else if c = 'b' then some '\x08'
  else if c = 'f' then some '\x0c'
  else if c = 'n' then some '\n'
  else if c = 'r' then some '\r'
  else if c = 't' then some '\t'
  else none

/-- Value of a hexadecimal digit. -/
def hexVal (c : Char) : Option Nat :=
  if '0' ≤ c ∧ c ≤ '9' then some (c.toNat - 48)
  else if 'a' ≤ c ∧ c ≤ 'f' then some (c.toNat - 87)
  else if 'A' ≤ c ∧ c ≤ 'F' then some (c.toNat - 55)
  else none

/-- Parse the body of a JSON string literal (after the opening quote),
returning the decoded characters and the remaining input.  Raw control
characters are rejected, as in strict JSON.  `\uXXXX` escapes are decoded
as single code points (surrogate pairing is not modelled; no input in this
development uses them). -/
def jParseStrChars : List Char → Option (List Char × List Char)
  | [] => none
  | c :: rest =>
    if c = '"' then some ([], rest)
    else if c = '\\' then
      match rest with
      | [] => none
      | e :: r2 =>
        if e = 'u' then
          match r2 with
          | h1 :: h2 :: h3 :: h4 :: r3 =>
            match hexVal h1, hexVal h2, hexVal h3, hexVal h4 with
            | some a, some b, some cc, some dd =>
              (jParseStrChars r3).map
                (fun p => (Char.ofNat (((a * 16 + b) * 16 + cc) * 16 + dd) :: p.1, p.2))
            | _, _, _, _ => none
          | _ => none
        else
          match escChar e with
          | some ch => (jParseStrChars r2).map (fun p => (ch :: p.1, p.2))
          | none => none
    else if c.toNat < 32 then none
    else (jParseStrChars rest).map (fun p => (c :: p.1, p.2))

/-- Value of a decimal literal with sign `neg`, integer digits `ds`,
fraction digits `fs` and exponent given by sign `esgn` (true = negative)
and digits `es`.  Built with `mkRat` over integer arithmetic so that
concrete values reduce to normalized rationals. -/
def jNumVal (neg : Bool) (ds fs : List Char) (esgn : Bool) (es : List Char) : ℚ :=
  let mantNum : Nat := digitsVal ds * 10 ^ fs.length + digitsVal fs
  let e := digitsVal es
  let num : Nat := if esgn then mantNum else mantNum * 10 ^ e
  let den : Nat := if esgn then 10 ^ (fs.length + e) else 10 ^ fs.length
  mkRat (if neg then -(num : Int) else (num : Int)) den

/-- Parse the optional exponent part of a JSON number and finish the number,
given the already-parsed sign and digit groups and the remaining input. -/
def jParseExpPart (neg : Bool) (ds fs : List Char) (r : List Char) :
    Option (Json × List Char) :=
  match r with
  | c :: t =>
    if c = 'e' ∨ c = 'E' then
      let (esgn, t1) : Bool × List Char :=
        match t with
        | '+' :: u => (false, u)
        | '-' :: u => (true, u)
        | _ => (false, t)
      let es := t1.takeWhile Char.isDigit
      if es = [] then none
      else some (Json.num (jNumVal neg ds fs esgn es), t1.dropWhile Char.isDigit)
    else some (Json.num (jNumVal neg ds fs false []), r)
  | [] => some (Json.num (jNumVal neg ds fs false []), r)

/-- Parse a JSON number (strict grammar: optional minus, no leading zeros,
fraction requires at least one digit).  Returns `none` when the input does
not start with a valid number. -/
def jParseNumber (cs : List Char) : Option (Json × List Char) :=
  let (neg, cs1) : Bool × List Char :=
    match cs with
    | '-' :: t => (true, t)
    | _ => (false, cs)
  let ds := cs1.takeWhile Char.isDigit
  let r1 := cs1.dropWhile Char.isDigit
  if ds = [] then none
  else if 1 < ds.length ∧ ds.head? = some '0' then none
  else
    match r1 with
    | '.' :: t =>
      let fs := t.takeWhile Char.isDigit
      let r2 := t.dropWhile Char.isDigit
      if fs = [] then none
      else jParseExpPart neg ds fs r2
    | _ => jParseExpPart neg ds [] r1

mutual

/-- Parse one JSON value.  `fu` is recursion fuel bounding the nesting
depth; `jsonParse` supplies more fuel than any input can consume. -/
def jParseV : Nat → List Char → Option (Json × List Char)
  | 0, _ => none
  | fu + 1, cs =>
    match cs with
    | [] => none
    | c :: rest =>
      if c = '\x7b' then
        match jSkipWs rest with
        | '\x7d' :: r2 => some (Json.obj [], r2)
        | cs2 => jParseMembers fu cs2 []
      else if c = '[' then
        match jSkipWs rest with
        | ']' :: r2 => some (Json.arr [], r2)
        | cs2 => jParseItems fu cs2 []
      else if c = '"' then
        match jParseStrChars rest with
        | some (sc, r2) => some (Json.str (String.mk sc), r2)
        | none => none
      else if c = 't' then
        match cs with
        | 't' :: 'r' :: 'u' :: 'e' :: r => some (Json.bool true, r)
        | _ => none
      else if c = 'f' then
        match cs with
        | 'f' :: 'a' :: 'l' :: 's' :: 'e' :: r => some (Json.bool false, r)
        | _ => none
      else if c = 'n' then
        match cs with
        | 'n' :: 'u' :: 'l' :: 'l' :: r => some (Json.null, r)
        | _ => none
      else jParseNumber cs

/-- Parse the members of a JSON object (input positioned at the first key). -/
def jParseMembers : Nat → List Char → List (String × Json) →
    Option (Json × List Char)
  | 0, _, _ => none
  | fu + 1, cs, acc =>
    match cs with
    | '"' :: rest =>
      match jParseStrChars rest with
      | none => none
      | some (key, r1) =>
        match jSkipWs r1 with
        | ':' :: r2 =>
          match jParseV fu (jSkipWs r2) with
          | none => none
          | some (v, r3) =>
            match jSkipWs r3 with
            | ',' :: r4 =>
              jParseMembers fu (jSkipWs r4) (acc ++ [(String.mk key, v)])
            | '\x7d' :: r4 => some (Json.obj (acc ++ [(String.mk key, v)]), r4)
            | _ => none
        | _ => none
    | _ => none

/-- Parse the items of a JSON array (input positioned at the first item). -/
def jParseItems : Nat → List Char → List Json → Option (Json × List Char)
  | 0, _, _ => none
  | fu + 1, cs, acc =>
    match jParseV fu cs with
    | none => none
    | some (v, r1) =>
      match jSkipWs r1 with
      | ',' :: r2 => jParseItems fu (jSkipWs r2) (acc ++ [v])
      | ']' :: r2 => some (Json.arr (acc ++ [v]), r2)
      | _ => none

end

/-- The model of `JSON.parse`: parse one value, allowing surrounding
whitespace, and require the whole input to be consumed.  Returns `none`
where `JSON.parse` would throw. -/
def jsonParse (s : String) : Option Json :=
  match jParseV (s.data.length + 1) (jSkipWs s.data) with
  | some (v, rest) => if jSkipWs rest = [] then some v else none
  | none => none

/-- Last-binding-wins lookup in a JSON object member list, matching the
semantics of duplicate keys in `JSON.parse`. -/
def jget : List (String × Json) → String → Option Json
  | [], _ => none
  | (k, v) :: t, key =>
    match jget t key with
    | some w => some w
    | none => if k = key then some v else none

/-- JS property access `x.k` for parsed JSON data: yields `Json.null` for a
missing key or a non-object receiver (both JS `undefined` and JS `null` are
collapsed into `Json.null`; the two are indistinguishable by the truthiness
tests and fallback chains modelled here).  Property access on the JS values
`null`/`undefined` themselves would throw; the handlers only perform it
behind `?.` or on values that were just produced by `JSON.parse`. -/
def jfield (j : Json) (key : String) : Json :=
  match j with
  | .obj members => (jget members key).getD .null
  | _ => .null

/-- JS truthiness of a parsed JSON value. -/
def jtruthy : Json → Bool
  | .null => false
  | .bool b => b
  | .num n => !(decide (n = 0))
  | .str s => !(decide (s = ""))
  | .arr _ => true
  | .obj _ => true

/-- The JS short-circuit `a || b` on parsed JSON values. -/
def jOr (a b : Json) : Json :=
  if jtruthy a then a else b

/-- Does `pat` occur as a leading sequence of `cs`? -/
def listStarts : List Char → List Char → Bool
  | [], _ => true
  | _ :: _, [] => false
  | p :: ps, c :: cs => p = c && listStarts ps cs

/-- `String.prototype.includes`: does `needle` occur as a substring? -/
def hasSub (hay needle : String) : Bool :=
  go needle.data hay.data
where
  go (n : List Char) : List Char → Bool
    | [] => listStarts n []
    | c :: cs => listStarts n (c :: cs) || go n cs

/-- `String.prototype.startsWith`. -/
def strStarts (s pat : String) : Bool :=
  listStarts pat.data s.data

/-- `x.replace(/\D/g, '')`: keep only ASCII digits.  Models the phone and
document-number sanitization of the request builder (src/server.js:170-172). -/
def stripNonDigits (s : String) : String :=
  String.mk (s.data.filter Char.isDigit)

/-- JS `Math.round`: round half toward positive infinity. -/
def jsRound (q : ℚ) : ℤ :=
  ⌊q + 1 / 2⌋

/-- JS `parseFloat` on a string: skip leading whitespace, optional sign,
longest prefix of `digits [. digits] [e [sign] digits]`; `none` models `NaN`.
(The special form `Infinity` accepted by `parseFloat` is not modelled; no
claim involves it.) -/
def parseFloatStr (s : String) : Option ℚ :=
  let cs := s.data.dropWhile isJsWs
  let (neg, cs1) : Bool × List Char :=
    match cs with
    | '-' :: t => (true, t)
    | '+' :: t => (false, t)
    | _ => (false, cs)
  let ds := cs1.takeWhile Char.isDigit
  let r1 := cs1.dropWhile Char.isDigit
  let (fs, r2) : List Char × List Char :=
    match r1 with
    | '.' :: t => (t.takeWhile Char.isDigit, t.dropWhile Char.isDigit)
    | _ => ([], r1)
  if ds = [] ∧ fs = [] then none
  else
    match r2 with
    | c :: t =>
      if c = 'e' ∨ c = 'E' then
        let (esgn, t1) : Bool × List Char :=
          match t with
          | '+' :: u => (false, u)
          | '-' :: u => (true, u)
          | _ => (false, t)
        let es := t1.takeWhile Char.isDigit
        if es = [] then some (jNumVal neg ds fs false [])
        else some (jNumVal neg ds fs esgn es)
      else some (jNumVal neg ds fs false [])
    | [] => some (jNumVal neg ds fs false [])

/-- JS `parseFloat` applied to a JSON body field (src/server.js:144).
Numbers round-trip unchanged; strings are parsed; `null`, booleans and
objects coerce to non-numeric strings and give `NaN` (`none`).  Arrays
coerce through `toString` in JS; that coercion is not modelled — no claim
exercises an array-valued amount. -/
def parseFloatJ : Json → Option ℚ
  | .num n => some n
  | .str s => parseFloatStr s
  | _ => none

/-- Client document block of a create-payment request body. -/
structure ClientDoc where
  number : String
  dtype : Option String

/-- Client customer block of a create-payment request body.  The JS falsy
check on the string fields is the emptiness check; `document` is `none` for
an absent/undefined field. -/
structure ClientCustomer where
  name : String
  email : String
  phone : String
  document : Option ClientDoc

/-- A create-payment request body (`POST /transactions`).  `amount` is kept
as a raw JSON value, as the handler itself decides how to coerce it. -/
structure ClientReq where
  customer : Option ClientCustomer
  amount : Json
  expiresInDays : Json
  productName : Option String
  externalRef : Option String

/-- The send-side amount-unit policies used across the revisions of this
repository: `cents` is `Math.round(amountNumber * 100)` (src/server.js:155),
`roundedInt` is `Math.round(amountNumber)` (src/unnamed/part_001:78), and
`decimal` sends `amountNumber` unchanged (src/unnamed/part_002:99). -/
inductive UnitPolicy where
  | cents
  | roundedInt
  | decimal

/-- Apply a unit policy to the parsed major-unit amount. -/
def applyUnitPolicy : UnitPolicy → ℚ → ℚ
  | .cents, q => (jsRound (q * 100) : ℚ)
  | .roundedInt, q => (jsRound q : ℚ)
  | .decimal, q => q

/-- The provider request body (`requestBody` in the source,
src/server.js:166-189).  The generated fallback title and external
reference (`Math.random` / `Date.now`) are passed in as `genTitle` and
`genRef`. -/
structure ProviderRequest where
  custName : String
  custEmail : String
  custPhone : String
  docNumber : String
  docType : String
  expiresInDays : Json
  amount : ℚ
  title : String
  unitPrice : ℚ
  quantity : Nat
  externalRef : String

/-- Build the provider request from validated input (src/server.js:166-189;
same shape in src/unnamed/part_001:87-110 and src/unnamed/part_002:85-109,
differing only in the unit policy applied to `amount`/`unitPrice`). -/
def buildProviderRequest (policy : UnitPolicy) (c : ClientCustomer)
    (doc : ClientDoc) (amountNumber : ℚ) (expiresInDays : Json)
    (productName externalRef : Option String)
    (genTitle genRef : String) : ProviderRequest :=
  { custName := c.name
  , custEmail := c.email
  , custPhone := stripNonDigits c.phone
  , docNumber := stripNonDigits doc.number
  , docType :=
      match doc.dtype with
      | some t => if t = "" then "CPF" else t
      | none => "CPF"
  , expiresInDays := jOr expiresInDays (Json.num 1)
  , amount := applyUnitPolicy policy amountNumber
  , title :=
      match productName with
      | some t => if t = "" then genTitle else t
      | none => genTitle
  , unitPrice := applyUnitPolicy policy amountNumber
  , quantity := 1
  , externalRef :=
      match externalRef with
      | some r => if r = "" then genRef else r
      | none => genRef }

/-- Outcome of the create-payment handler before the network call: either an
early JSON error response (no outbound HTTPS call is made) or the provider
request that is sent. -/
inductive OutboundResult where
  | reject (status : Nat) (error : String) (message : String)
  | send (pr : ProviderRequest)

/-- The validation and request-building phase of `POST /transactions`
(src/server.js:119-189): credential check, presence check of
customer/name/email/phone/document and truthiness of `amount`, numeric
validation via `parseFloat`, then the request build.  A `reject` models a
`return res.status(...).json(...)` before `fetch`. -/
def createPaymentOutbound (policy : UnitPolicy) (secretKey : String)
    (req : ClientReq) (genTitle genRef : String) : OutboundResult :=
  if secretKey = "" then
    .reject 500 "Configuração do servidor incompleta"
      "A chave secreta da Payevo não foi configurada no Railway. Configure PAYEVO_SECRET_KEY nas variáveis de ambiente."
  else
    match req.customer with
    | none =>
      .reject 400 "Dados inválidos"
        "É necessário fornecer: customer (name, email, phone, document), amount"
    | some c =>
      match c.document with
      | none =>
        .reject 400 "Dados inválidos"
          "É necessário fornecer: customer (name, email, phone, document), amount"
      | some doc =>
        if jtruthy req.amount = false ∨ c.name = "" ∨ c.email = "" ∨ c.phone = "" then
          .reject 400 "Dados inválidos"
            "É necessário fornecer: customer (name, email, phone, document), amount"
        else
          match parseFloatJ req.amount with
          | none => .reject 400 "Valor inválido" "O valor deve ser um número maior que zero"
          | some a =>
            if a ≤ 0 then
              .reject 400 "Valor inválido" "O valor deve ser um número maior que zero"
            else
              .send (buildProviderRequest policy c doc a req.expiresInDays
                req.productName req.externalRef genTitle genRef)

/-- The test `/^0\s/.test(c)` followed by `c.replace(/^0\s+/, '')`
(src/server.js:235-237): when the input starts with the single digit `0`
followed by a whitespace character, drop the `0` and the whole whitespace
run; otherwise leave the input unchanged. -/
def stripZeroWs (cs : List Char) : List Char :=
  match cs with
  | '0' :: c :: rest =>
    if isJsWs c then (c :: rest).dropWhile isJsWs else cs
  | _ => cs

/-- The test `/^\d+\s/.test(c)` followed by `c.replace(/^\d+\s+/, '')`
(src/server.js:239-241): when the input starts with a digit run followed by
a whitespace character, drop the digits and the whole whitespace run;
otherwise leave the input unchanged. -/
def stripDigitsWs (cs : List Char) : List Char :=
  if cs.takeWhile Char.isDigit = [] then cs
  else
    match cs.dropWhile Char.isDigit with
    | c :: _ =>
      if isJsWs c then (cs.dropWhile Char.isDigit).dropWhile isJsWs else cs
    | [] => cs

/-- `cleanedResponse` of the create-payment handler (src/server.js:231-241):
trim, then conditionally strip a leading `0`+whitespace prefix, then
conditionally strip a leading digits+whitespace prefix — all BEFORE the
(single) `JSON.parse` attempt. -/
def cleanedOf (text : String) : String :=
  String.mk (stripDigitsWs (stripZeroWs (jTrim text).data))

/-- The parse of the provider response body performed by the create-payment
handler (src/server.js:231-243): `JSON.parse(cleanedResponse)`, where
`none` models the thrown exception. -/
def parseProviderBody (text : String) : Option Json :=
  jsonParse (cleanedOf text)

/-- `responseText.replace(/^0\s+/, '').trim()` (src/server.js:262 and 268):
strip the anchored `0`+whitespace prefix from the RAW text, then trim. -/
def detailsOf (text : String) : String :=
  jTrim (String.mk (stripZeroWs text.data))

/-- `pixData = responseData.pix || {}` (src/server.js:284). -/
def pixDataOf (d : Json) : Json :=
  jOr (jfield d "pix") (Json.obj [])

/-- `payloadValue` (src/server.js:324): the copy-paste payload probed by JS
`||` from `payload`, `pixCopyPaste`, `pix.copyPaste`, `pix.qrcode`, with
`''` as final fallback. -/
def payloadValueOf (d : Json) : Json :=
  jOr (jfield d "payload")
    (jOr (jfield d "pixCopyPaste")
      (jOr (jfield (pixDataOf d) "copyPaste")
        (jOr (jfield (pixDataOf d) "qrcode") (Json.str ""))))

/-- Does this JSON value start with the image-data marker?  In the source
this is `x.startsWith('data:image')`, only ever evaluated after a truthy
check; a truthy non-string value would make the source throw a TypeError,
so the theorems about this function restrict the probed fields to strings
or absent values. -/
def jStartsImage (j : Json) : Bool :=
  match j with
  | .str s => strStarts s "data:image"
  | _ => false

/-- String content of a JSON value, for positions where the source has
already established the value is a string. -/
def jAsStr : Json → String
  | .str s => s
  | _ => ""

/-- `qrCodeBase64Value` (src/server.js:299-309): probe `qrCodeBase64` then
`qrCode`, keeping a candidate only when it is truthy and starts with
`data:image`; otherwise the empty string.  Note the source never probes
`pix.qrcode` or `pix.qrCode` here. -/
def qrCodeBase64ValueOf (d : Json) : String :=
  let q1 := jfield d "qrCodeBase64"
  if jtruthy q1 && jStartsImage q1 then jAsStr q1
  else
    let q2 := jfield d "qrCode"
    if jtruthy q2 && jStartsImage q2 then jAsStr q2
    else ""

/-- `qrCodeUrlValue` (src/server.js:312-321): probe `qrCodeUrl`,
`pix.qrCodeUrl`, `pix.receiptUrl`, else the initial `''`. -/
def qrCodeUrlValueOf (d : Json) : Json :=
  jOr (jfield d "qrCodeUrl")
    (jOr (jfield (pixDataOf d) "qrCodeUrl")
      (jOr (jfield (pixDataOf d) "receiptUrl") (Json.str "")))

/-- The transaction id of the canonical response (src/server.js:335):
`responseData.id || responseData.transactionId || responseData.transaction?.id || ''`. -/
def transactionIdOf (d : Json) : Json :=
  jOr (jfield d "id")
    (jOr (jfield d "transactionId")
      (jOr (jfield (jfield d "transaction") "id") (Json.str "")))

/-- The status of the canonical response (src/server.js:337):
`responseData.status || 'pending'`. -/
def statusValueOf (d : Json) : Json :=
  jOr (jfield d "status") (Json.str "pending")

/-- Numeric content of a JSON value for positions where the source applies
arithmetic.  The handlers only divide the `amount` field, and the theorems
about them restrict that field to numbers (on other truthy types JS would
produce `NaN` or perform string coercions that are not modelled). -/
def jToNum : Json → ℚ
  | .num n => n
  | _ => 0

/-- `responseAmount` (src/server.js:288-293): start from the client's parsed
`amountNumber`; if `responseData.amount` is truthy, replace it with
`responseData.amount / 100`. -/
def responseAmountOf (amountNumber : ℚ) (d : Json) : ℚ :=
  if jtruthy (jfield d "amount") then jToNum (jfield d "amount") / 100
  else amountNumber

/-- The canonical create-payment success response (src/server.js:331-339). -/
structure PayOut where
  payload : Json
  qrCode : String
  qrCodeUrl : Json
  transactionId : Json
  amount : ℚ
  status : Json
  expirationDate : Json

/-- Build the canonical success response from the parsed provider data
(src/server.js:282-339). -/
def canonicalOf (amountNumber : ℚ) (d : Json) : PayOut :=
  { payload := payloadValueOf d
  , qrCode := qrCodeBase64ValueOf d
  , qrCodeUrl := qrCodeUrlValueOf d
  , transactionId := transactionIdOf d
  , amount := responseAmountOf amountNumber d
  , status := statusValueOf d
  , expirationDate := jOr (jfield (pixDataOf d) "expirationDate") Json.null }

/-- An error response of the create-payment handler: HTTP status, `error`
field, `message` field, and the `details`/`rawResponse`-style extra field
of the branch that produced it. -/
structure PayErr where
  status : Nat
  error : Json
  message : Json
  extra : Json

/-- Result of the create-payment handler after the provider call. -/
inductive PayResult where
  | ok (o : PayOut)
  | err (e : PayErr)

/-- The hint message of the fee-error branch (src/server.js:261). -/
def feeHintMsg : String :=
  "O valor informado não é suficiente após as taxas. Tente um valor maior (mínimo R$ 10,00 recomendado)."

/-- The response-handling phase of `POST /transactions`
(src/server.js:223-339), given the provider HTTP outcome (`ok`, `status`)
and raw body `text`, and the already-parsed client amount `amountNumber`:
parse the cleaned body; on parse failure scan the RAW text for the fee
substrings `taxas`/`taxa`/`Valor somado` and answer 400 with the fee hint,
else answer with the provider status (500 when the status is falsy) and the
prefix-stripped raw text; on parse success with a non-ok status mirror the
provider status with the decoded `error`/`message`/`details` fields; on
parse success with an ok status build the canonical response. -/
def createPaymentInbound (amountNumber : ℚ) (ok : Bool) (status : Nat)
    (text : String) : PayResult :=
  match parseProviderBody text with
  | none =>
    if hasSub text "taxas" || hasSub text "taxa" || hasSub text "Valor somado" then
      .err ⟨400, Json.str "Erro no valor", Json.str feeHintMsg,
            Json.str (detailsOf text)⟩
    else
      .err ⟨(if status = 0 then 500 else status), Json.str "Erro na API Payevo",
            Json.str (if detailsOf text = "" then "Erro desconhecido" else detailsOf text),
            Json.str text⟩
  | some d =>
    if ok then .ok (canonicalOf amountNumber d)
    else
      .err ⟨status, jOr (jfield d "error") (Json.str "Erro na API Payevo"),
            jOr (jfield d "message") (jOr (jfield d "details") (Json.str text)), d⟩

/-- The canonical status-lookup response (src/server.js:98-104).  `amount`
is `Json.num (x / 100)` or `Json.null`, mirroring the ternary in the
source. -/
structure StatusOut where
  transactionId : Json
  status : Json
  amount : Json
  paidAt : Json
  createdAt : Json

/-- Build the canonical status response from the parsed provider data
(src/server.js:98-104). -/
def statusOutOf (tid : String) (d : Json) : StatusOut :=
  { transactionId := jOr (jfield d "id") (Json.str tid)
  , status := jOr (jfield d "status") (Json.str "unknown")
  , amount :=
      if jtruthy (jfield d "amount") then Json.num (jToNum (jfield d "amount") / 100)
      else Json.null
  , paidAt := jOr (jfield d "paidAt") Json.null
  , createdAt := jOr (jfield d "createdAt") Json.null }

/-- Result of the status-lookup handler after the provider call. -/
inductive StatusResult where
  | ok (o : StatusOut)
  | err (status : Nat) (error : String) (message : String)

/-- The response-handling phase of `GET /transactions/:transactionId`
(src/server.js:74-104), given the provider HTTP outcome and raw body: a
non-ok status mirrors the provider status with the RAW body as message; an
ok body is `JSON.parse`d DIRECTLY (no trimming, no prefix stripping, no fee
scan), a parse failure answering 500 with the RAW body as message. -/
def getStatusRoute (tid : String) (ok : Bool) (status : Nat)
    (text : String) : StatusResult :=
  if ok = false then
    .err status "Erro ao verificar transação" text
  else
    match jsonParse text with
    | none => .err 500 "Erro ao processar resposta da Payevo" text
    | some d => .ok (statusOutOf tid d)

/-- Does the text begin with one or more digit characters followed by a
whitespace character (the JS test `/^\d+\s/`)? -/
def startsDigitsWs (cs : List Char) : Bool :=
  match cs.dropWhile Char.isDigit with
  | c :: _ => !(cs.takeWhile Char.isDigit).isEmpty && isJsWs c
  | [] => false

/-- Spec-side definition for the claimed inbound parse order: first a direct
JSON decode of the trimmed text; only if that fails and the text begins
with digits+whitespace, strip exactly that one prefix and retry the decode
once.  Stated from the claim's words, to be compared with
`parseProviderBody`. -/
def specOrderedParse (text : String) : Option Json :=
  let t := jTrim text
  match jsonParse t with
  | some v => some v
  | none =>
    if startsDigitsWs t.data then jsonParse (String.mk (stripDigitsWs t.data))
    else none

/-- The one input shape on which the source's response cleaning strips two
prefixes in a row: a `0`+whitespace prefix whose remainder starts with a
further digits+whitespace run. -/
def doubleStripShape (cs : List Char) : Bool :=
  match cs with
  | '0' :: c :: rest => isJsWs c && startsDigitsWs ((c :: rest).dropWhile isJsWs)
  | _ => false

/-- Spec-side probe for the QR image: first candidate that is present and
carries the `data:image` marker wins; empty string when none qualifies.
Stated from the claim's words. -/
def probeImage : List (Option String) → String
  | [] => ""
  | some s :: rest => if strStarts s "data:image" then s else probeImage rest
  | none :: rest => probeImage rest

/-- Spec-side probe for string fields: first candidate that is present and
non-empty wins; empty string when none qualifies.  Stated from the claim's
words ("first present, non-empty wins"). -/
def probeNonEmpty : List (Option String) → String
  | [] => ""
  | some s :: rest => if s = "" then probeNonEmpty rest else s
  | none :: rest => probeNonEmpty rest

/-- Projection of a JSON value to `Option String`: `some` when the value is
a string, `none` otherwise. -/
def strOptV : Json → Option String
  | .str s => some s
  | _ => none

/-- Projection of a probed field location to `Option String`: `some` when
the field holds a string, `none` when it is absent (or not a string). -/
def strOptOf (j : Json) (key : String) : Option String :=
  strOptV (jfield j key)

/-- The claimed default rule for the canonical status field: the `status`
string when present and non-empty, else `"pending"`.  Stated from the
spec's words. -/
def specStatus : Option String → String
  | some s => if s = "" then "pending" else s
  | none => "pending"

/-- A JSON value that is either a string or absent (`Json.null` also stands
for JS `undefined` in this embedding).  The refinement theorems restrict
the probed provider fields to this well-typed domain, which is the domain
where the JS `||`/`startsWith` idioms of the source are exactly modelled. -/
def strOrAbsent (j : Json) : Prop :=
  (∃ s, j = Json.str s) ∨ j = Json.null

/-- The provider body of the fee-message scenario: the text `0 ` followed by
a JSON error object. -/
def c1Text : String :=
  "0 \x7b\"status\":\"error\",\"message\":\"Valor somado com as taxas excede...\"\x7d"

/-- The JSON object obtained from `c1Text` after the prefix strip. -/
def c1Data : Json :=
  Json.obj [("status", Json.str "error"),
            ("message", Json.str "Valor somado com as taxas excede...")]

/-- A provider body starting with `0 ` followed by a second digits+space
token and then a JSON object. -/
def c3Text : String := "0 12 \x7b\"a\":1\x7d"

/-- A provider success body whose only QR-image candidate sits at
`pix.qrcode`. -/
def c5Data : Json :=
  Json.obj [("pix", Json.obj [("qrcode", Json.str "data:image/png;base64,AAA")])]

/-- The provider success body of the payload-extraction scenario. -/
def c6Body : String :=
  "\x7b\"id\":\"tx_1\",\"status\":\"pending\",\"pix\":\x7b\"qrcode\":\"000201...\"\x7d\x7d"

/-- The JSON object decoded from `c6Body`. -/
def c6Data : Json :=
  Json.obj [("id", Json.str "tx_1"), ("status", Json.str "pending"),
            ("pix", Json.obj [("qrcode", Json.str "000201...")])]

/-- A syntactically valid create-payment request used to exercise the
outbound normalizer. -/
def c2Req : ClientReq :=
  { customer := some { name := "Ana", email := "ana@mail.com", phone := "(11) 99999-9999"
                     , document := some { number := "042.815.546-45", dtype := some "CPF" } }
  , amount := Json.str "30.00"
  , expiresInDays := Json.null
  , productName := some "pedido"
  , externalRef := some "PED1" }

/-- A create-payment request whose amount is the non-numeric string
`"abc"`. -/
def c4Req : ClientReq :=
  { customer := some { name := "Ana", email := "ana@mail.com", phone := "(11) 99999-9999"
                     , document := some { number := "042.815.546-45", dtype := some "CPF" } }
  , amount := Json.str "abc"
  , expiresInDays := Json.null
  , productName := none
  , externalRef := none }

/-- The provider request built from `c2Req` under the cents policy. -/
def c2Prov : ProviderRequest :=
  buildProviderRequest UnitPolicy.cents
    { name := "Ana", email := "ana@mail.com", phone := "(11) 99999-9999"
    , document := some { number := "042.815.546-45", dtype := some "CPF" } }
    { number := "042.815.546-45", dtype := some "CPF" }
    30 Json.null (some "pedido") (some "PED1") "gt" "gr"

/-- The provider status body of the minor-unit conversion scenario. -/
def c8Body : String := "\x7b\"id\":\"tx_1\",\"status\":\"paid\",\"amount\":3000\x7d"

/-- The JSON object decoded from `c8Body`. -/
def c8Data : Json :=
  Json.obj [("id", Json.str "tx_1"), ("status", Json.str "paid"),
            ("amount", Json.num 3000)]

/-- Variant of `c8Body` whose amount is the number `0`. -/
def c8ZeroBody : String := "\x7b\"id\":\"tx_1\",\"status\":\"paid\",\"amount\":0\x7d"

/-- The JSON object decoded from `c8ZeroBody`. -/
def c8ZeroData : Json :=
  Json.obj [("id", Json.str "tx_1"), ("status", Json.str "paid"),
            ("amount", Json.num 0)]

/-- Helper: one step of the JS `||` fallback chain equals one step of the
spec-side non-empty probe, on string-or-absent values. -/
theorem jOr_probe (j k : Json) (os : List (Option String)) (h : strOrAbsent j)
    (hk : k = Json.str (probeNonEmpty os)) :
    jOr j k = Json.str (probeNonEmpty (strOptV j :: os)) := by
  rcases h with ⟨s, rfl⟩ | rfl
  · by_cases hs : s = ""
    · subst hs
      simp [jOr, jtruthy, strOptV, probeNonEmpty, hk]
    · simp [jOr, jtruthy, hs, strOptV, probeNonEmpty]
  · simp [jOr, jtruthy, strOptV, probeNonEmpty, hk]

/-- C9: phone and document-number sanitization (removing every non-digit
character) is idempotent: applying it twice equals applying it once. -/
theorem c9_sanitization_idempotent (s : String) :
    stripNonDigits (stripNonDigits s) = stripNonDigits s := by
  simp [stripNonDigits, List.filter_filter]

/-- C1 counterexample: on the body `"0 " ++ JSON`, the create-payment
handler strips the prefix, the JSON decode then SUCCEEDS, and (with
provider status 400, not ok) the client receives the generic provider
error, whose `error` field differs from the fee-error branch's
`"Erro no valor"`; the claimed FeeInsufficientError is not produced. -/
theorem c1_fee_error_counterexample :
    createPaymentInbound 30 false 400 c1Text
      = PayResult.err ⟨400, Json.str "Erro na API Payevo",
          Json.str "Valor somado com as taxas excede...", c1Data⟩
    ∧ (Json.str "Erro na API Payevo" ≠ Json.str "Erro no valor")
    ∧ (Json.str "Valor somado com as taxas excede..." ≠ Json.str feeHintMsg) := by
  refine ⟨rfl, ?_, ?_⟩
  · intro h
    rw [Json.str.injEq] at h
    exact absurd h (by decide)
  · intro h
    rw [Json.str.injEq] at h
    exact absurd h (by decide)

/-- C1 (amended): given the body `"0 " ++ JSON-error-object`, the parser
strips the leading `0 ` prefix, after which the body parses as JSON, so the
fee-scan branch is never reached; with a non-ok provider status 400 the
result is the generic provider error carrying the decoded message. -/
theorem c1_stripped_body_is_provider_error :
    cleanedOf c1Text
      = "\x7b\"status\":\"error\",\"message\":\"Valor somado com as taxas excede...\"\x7d"
    ∧ parseProviderBody c1Text = some c1Data
    ∧ createPaymentInbound 30 false 400 c1Text
        = PayResult.err ⟨400, Json.str "Erro na API Payevo",
            Json.str "Valor somado com as taxas excede...", c1Data⟩ :=
  ⟨rfl, rfl, rfl⟩

/-- C3 counterexample: on the body `"0 12 {\"a\":1}"` the code's cleaning
strips TWO prefixes before the single decode and succeeds, while the
claimed direct-decode-then-single-retry procedure fails. -/
theorem c3_strict_order_counterexample :
    specOrderedParse c3Text = none
    ∧ parseProviderBody c3Text = some (Json.obj [("a", Json.num 1)])
    ∧ parseProviderBody c3Text ≠ specOrderedParse c3Text := by
  have h1 : parseProviderBody c3Text = some (Json.obj [("a", Json.num 1)]) := rfl
  have h2 : specOrderedParse c3Text = none := rfl
  refine ⟨h2, h1, ?_⟩
  rw [h1, h2]
  simp

/-- C5 counterexample: a response whose only image candidate sits at
`pix.qrcode` (with the `data:image` marker) yields an EMPTY canonical
`qrCode`, while the claimed four-location probe would return it. -/
theorem c5_qr_probe_counterexample :
    qrCodeBase64ValueOf c5Data = ""
    ∧ probeImage [strOptOf c5Data "qrCodeBase64", strOptOf c5Data "qrCode",
        strOptOf (pixDataOf c5Data) "qrcode", strOptOf (pixDataOf c5Data) "qrCode"]
      = "data:image/png;base64,AAA"
    ∧ ("" : String) ≠ "data:image/png;base64,AAA" :=
  ⟨rfl, rfl, by decide⟩

/-- C5 (amended): the QR image is probed from `qrCodeBase64` then `qrCode`
ONLY (`pix.qrcode` and `pix.qrCode` are never consulted); a candidate is
kept only when it starts with `data:image`, the next candidate being tried
otherwise, and the result is the empty string when none qualifies. -/
theorem c5_qr_probe_amended (d : Json)
    (h1 : strOrAbsent (jfield d "qrCodeBase64"))
    (h2 : strOrAbsent (jfield d "qrCode")) :
    qrCodeBase64ValueOf d
      = probeImage [strOptOf d "qrCodeBase64", strOptOf d "qrCode"] := by
  have step : ∀ (j : Json) (rest : List (Option String)) (k : String),
      strOrAbsent j → k = probeImage rest →
      (if jtruthy j && jStartsImage j then jAsStr j else k)
        = probeImage (strOptV j :: rest) := by
    intro j rest k hj hk
    have hemp : strStarts "" "data:image" = false := rfl
    rcases hj with ⟨s, rfl⟩ | rfl
    · by_cases hs : s = ""
      · subst hs
        simpa [jtruthy, jStartsImage, strOptV, probeImage, hemp] using hk
      · by_cases hi : strStarts s "data:image"
        · simp [jtruthy, jStartsImage, strOptV, probeImage, hs, hi, jAsStr]
        · simp [jtruthy, jStartsImage, strOptV, probeImage, hs, hi, hk]
    · simpa [jtruthy, jStartsImage, strOptV, probeImage] using hk
  exact step (jfield d "qrCodeBase64") [strOptV (jfield d "qrCode")] _ h1
    (step (jfield d "qrCode") [] "" h2 rfl)

/-- C5 amended witness: the two-location probe agrees with the source on the
`pix.qrcode`-only response. -/
theorem c5_qr_probe_amended_witness :
    qrCodeBase64ValueOf c5Data
      = probeImage [strOptOf c5Data "qrCodeBase64", strOptOf c5Data "qrCode"] :=
  c5_qr_probe_amended c5Data (Or.inr rfl) (Or.inr rfl)

/-- C6: on every success response whose probed locations are strings or
absent, the canonical payload is the first-present-non-empty probe of
`payload`/`pixCopyPaste`/`pix.copyPaste`/`pix.qrcode`, the transaction id
of `id`/`transactionId`/`transaction.id`, and the status is the `status`
field defaulting to `"pending"`; in particular on the body
`{"id":"tx_1","status":"pending","pix":{"qrcode":"000201..."}}` the payload
is `"000201..."`, the transaction id `"tx_1"`, the status `"pending"`. -/
theorem c6_payload_txid_status_probing :
    (∀ d : Json,
      strOrAbsent (jfield d "payload") →
      strOrAbsent (jfield d "pixCopyPaste") →
      strOrAbsent (jfield (pixDataOf d) "copyPaste") →
      strOrAbsent (jfield (pixDataOf d) "qrcode") →
      strOrAbsent (jfield d "id") →
      strOrAbsent (jfield d "transactionId") →
      strOrAbsent (jfield (jfield d "transaction") "id") →
      strOrAbsent (jfield d "status") →
      payloadValueOf d = Json.str (probeNonEmpty
          [strOptOf d "payload", strOptOf d "pixCopyPaste",
           strOptOf (pixDataOf d) "copyPaste", strOptOf (pixDataOf d) "qrcode"])
      ∧ transactionIdOf d = Json.str (probeNonEmpty
          [strOptOf d "id", strOptOf d "transactionId",
           strOptV (jfield (jfield d "transaction") "id")])
      ∧ statusValueOf d = Json.str (specStatus (strOptOf d "status")))
    ∧ (jsonParse c6Body = some c6Data
       ∧ payloadValueOf c6Data = Json.str "000201..."
       ∧ transactionIdOf c6Data = Json.str "tx_1"
       ∧ statusValueOf c6Data = Json.str "pending") := by
  constructor
  · intro d h1 h2 h3 h4 h5 h6 h7 h8
    refine ⟨?_, ?_, ?_⟩
    · exact jOr_probe _ _ _ h1
        (jOr_probe _ _ _ h2 (jOr_probe _ _ _ h3 (jOr_probe _ _ _ h4 rfl)))
    · exact jOr_probe _ _ _ h5 (jOr_probe _ _ _ h6 (jOr_probe _ _ _ h7 rfl))
    · rcases h8 with ⟨s, e⟩ | e
      · by_cases hs : s = ""
        · subst hs
          simp [statusValueOf, e, jOr, jtruthy, strOptOf, strOptV, specStatus]
        · simp [statusValueOf, e, jOr, jtruthy, hs, strOptOf, strOptV, specStatus]
      · simp [statusValueOf, e, jOr, jtruthy, strOptOf, strOptV, specStatus]
  · exact ⟨rfl, rfl, rfl, rfl⟩

/-- C6 witness: the probing characterization applied to the decoded body of
the concrete scenario. -/
theorem c6_payload_txid_status_probing_witness :
    payloadValueOf c6Data = Json.str (probeNonEmpty
      [strOptOf c6Data "payload", strOptOf c6Data "pixCopyPaste",
       strOptOf (pixDataOf c6Data) "copyPaste", strOptOf (pixDataOf c6Data) "qrcode"]) :=
  (c6_payload_txid_status_probing.1 c6Data (Or.inr rfl) (Or.inr rfl) (Or.inr rfl)
    (Or.inl ⟨"000201...", rfl⟩) (Or.inl ⟨"tx_1", rfl⟩) (Or.inr rfl) (Or.inr rfl)
    (Or.inl ⟨"pending", rfl⟩)).1

/-- C7 counterexample: a provider response carrying the numeric amount `0`
(which IS a numeric amount) makes the canonical amount fall back to the
client's original value instead of `0 / 100`, because the source guards the
division with a JS truthiness test. -/
theorem c7_amount_zero_counterexample :
    responseAmountOf 50 (Json.obj [("amount", Json.num 0)]) = 50
    ∧ (50 : ℚ) ≠ 0 / 100 :=
  ⟨rfl, by norm_num⟩

/-- C7 (amended): on a success response, a numeric NONZERO provider amount
is divided by 100; a zero or absent amount leaves the client's original
parsed amount. -/
theorem c7_amount_reconciliation_amended :
    (∀ (amtN : ℚ) (d : Json) (n : ℚ), jfield d "amount" = Json.num n → n ≠ 0 →
        responseAmountOf amtN d = n / 100)
    ∧ (∀ (amtN : ℚ) (d : Json),
        jfield d "amount" = Json.num 0 ∨ jfield d "amount" = Json.null →
        responseAmountOf amtN d = amtN) := by
  constructor
  · intro amtN d n h hn
    simp [responseAmountOf, h, jtruthy, jToNum, hn]
  · intro amtN d h
    rcases h with h | h <;> simp [responseAmountOf, h, jtruthy, jToNum]

/-- C7 amended witness: provider amount 3000 yields canonical amount 30. -/
theorem c7_amount_reconciliation_amended_witness :
    responseAmountOf 30 (Json.obj [("amount", Json.num 3000)]) = 30 := by
  have h := c7_amount_reconciliation_amended.1 30
    (Json.obj [("amount", Json.num 3000)]) 3000 rfl (by norm_num)
  rw [h]
  norm_num

/-- C8 counterexample: a status response carrying the numeric amount `0`
yields canonical amount `null`, not `0 / 100`, because the source guards
the division with a JS truthiness test. -/
theorem c8_status_amount_zero_counterexample :
    getStatusRoute "tx_1" true 200 c8ZeroBody
      = StatusResult.ok (statusOutOf "tx_1" c8ZeroData)
    ∧ (statusOutOf "tx_1" c8ZeroData).amount = Json.null
    ∧ Json.null ≠ Json.num (0 / 100) :=
  ⟨rfl, rfl, fun h => Json.noConfusion h⟩

/-- C8 (amended): on a status response decoding to JSON with a numeric
NONZERO amount, the canonical amount is the provider amount divided by 100;
a zero or absent amount yields `null`. -/
theorem c8_status_amount_amended :
    (∀ (tid : String) (st : Nat) (text : String) (d : Json) (n : ℚ),
        jsonParse text = some d → jfield d "amount" = Json.num n → n ≠ 0 →
        getStatusRoute tid true st text = StatusResult.ok (statusOutOf tid d)
        ∧ (statusOutOf tid d).amount = Json.num (n / 100))
    ∧ (∀ (tid : String) (d : Json),
        jfield d "amount" = Json.num 0 ∨ jfield d "amount" = Json.null →
        (statusOutOf tid d).amount = Json.null) := by
  constructor
  · intro tid st text d n hp h hn
    constructor
    · simp [getStatusRoute, hp]
    · simp [statusOutOf, h, jtruthy, jToNum, hn]
  · intro tid d h
    rcases h with h | h <;> simp [statusOutOf, h, jtruthy, jToNum]

/-- C8 amended witness: provider status amount 3000 becomes 30. -/
theorem c8_status_amount_amended_witness :
    getStatusRoute "tx_1" true 200 c8Body
      = StatusResult.ok (statusOutOf "tx_1" c8Data)
    ∧ (statusOutOf "tx_1" c8Data).amount = Json.num 30 := by
  have h := c8_status_amount_amended.1 "tx_1" 200 c8Body c8Data 3000 rfl rfl (by norm_num)
  exact ⟨h.1, h.2.trans (congrArg Json.num (by norm_num))⟩

/-- C10: on the status-lookup path, every ok-status provider body that
fails the direct JSON decode yields an HTTP 500 error carrying the RAW
provider text as the message — no digit-prefix stripping and no
fee-substring scan is applied (the message is the verbatim text and the
status is 500 even for fee-phrased bodies). -/
theorem c10_status_parse_failure_500 (tid : String) (st : Nat) (text : String)
    (h : jsonParse text = none) :
    getStatusRoute tid true st text
      = StatusResult.err 500 "Erro ao processar resposta da Payevo" text := by
  simp [getStatusRoute, h]

/-- C10 witness: a fee-phrased, `0 `-prefixed non-JSON body still yields
the generic 500 with the verbatim text on the status-lookup path. -/
theorem c10_status_parse_failure_500_witness :
    getStatusRoute "tx_1" true 503 "0 Valor somado com as taxas excede..."
      = StatusResult.err 500 "Erro ao processar resposta da Payevo"
          "0 Valor somado com as taxas excede..." :=
  c10_status_parse_failure_500 "tx_1" 503 _ rfl


/-- C2: whenever the outbound normalizer accepts a request and builds a
provider request, `amount` and `items[0].unitPrice` are equal, and both are
the configured unit policy applied to the single parsed source amount —
regardless of which of the three policies is configured. -/
theorem c2_amount_equals_unit_price (policy : UnitPolicy) (key : String)
    (req : ClientReq) (gT gR : String) (pr : ProviderRequest)
    (h : createPaymentOutbound policy key req gT gR = OutboundResult.send pr) :
    pr.amount = pr.unitPrice
    ∧ ∃ a, parseFloatJ req.amount = some a ∧ pr.amount = applyUnitPolicy policy a := by
  unfold createPaymentOutbound at h
  split at h
  · exact OutboundResult.noConfusion h
  · split at h
    · exact OutboundResult.noConfusion h
    · split at h
      · exact OutboundResult.noConfusion h
      · split at h
        · exact OutboundResult.noConfusion h
        · split at h
          · exact OutboundResult.noConfusion h
          · rename_i a heq
            split at h
            · exact OutboundResult.noConfusion h
            · injection h with h'
              subst h'
              exact ⟨rfl, a, heq, rfl⟩

/-- C2 witness: the equality on a concrete accepted request under the cents
policy. -/
theorem c2_amount_equals_unit_price_witness :
    createPaymentOutbound UnitPolicy.cents "sk" c2Req "gt" "gr"
      = OutboundResult.send c2Prov
    ∧ c2Prov.amount = c2Prov.unitPrice :=
  ⟨rfl, (c2_amount_equals_unit_price UnitPolicy.cents "sk" c2Req "gt" "gr" c2Prov rfl).1⟩

/-- C4: with the secret key configured, every request whose amount is
non-numeric (`parseFloat` gives `NaN`) or parses to a value ≤ 0 is rejected
with HTTP 400 before any outbound call (the result is a `reject`, never a
`send`). -/
theorem c4_invalid_amount_rejected (policy : UnitPolicy) (key : String)
    (req : ClientReq) (gT gR : String) (hkey : ¬ key = "")
    (hbad : parseFloatJ req.amount = none
            ∨ ∃ a, parseFloatJ req.amount = some a ∧ a ≤ 0) :
    ∃ er ms, createPaymentOutbound policy key req gT gR
      = OutboundResult.reject 400 er ms := by
  obtain ⟨cust, amt, exp, pn, xr⟩ := req
  unfold createPaymentOutbound
  rw [if_neg hkey]
  rcases cust with _ | ⟨nm, em, ph, doco⟩
  · exact ⟨_, _, rfl⟩
  · rcases doco with _ | doc
    · exact ⟨_, _, rfl⟩
    · dsimp only at hbad ⊢
      by_cases hp : jtruthy amt = false ∨ nm = "" ∨ em = "" ∨ ph = ""
      · rw [if_pos hp]
        exact ⟨_, _, rfl⟩
      · rw [if_neg hp]
        rcases hbad with hn | ⟨a, ha, hle⟩
        · rw [hn]
          exact ⟨_, _, rfl⟩
        · rw [ha]
          exact ⟨_, _, if_pos hle⟩

/-- C4 witness: the non-numeric amount `"abc"` is rejected with 400. -/
theorem c4_invalid_amount_rejected_witness :
    ∃ er ms, createPaymentOutbound UnitPolicy.cents "sk" c4Req "gt" "gr"
      = OutboundResult.reject 400 er ms :=
  c4_invalid_amount_rejected UnitPolicy.cents "sk" c4Req "gt" "gr" (by decide) (Or.inl rfl)

/-- Helper: a JS-whitespace character is not a digit. -/
theorem jsWs_not_digit {c : Char} (h : isJsWs c = true) : c.isDigit = false := by
  unfold isJsWs at h
  simp only [Bool.or_eq_true, decide_eq_true_eq] at h
  rcases h with ((((h | h) | h) | h) | h) | h <;> subst h <;> decide

theorem digit_not_jsWs {c : Char} (h : c.isDigit = true) : isJsWs c = false := by
  cases hws : isJsWs c
  · rfl
  · rw [jsWs_not_digit hws] at h
    exact Bool.noConfusion h

theorem jsonWs_isJsWs {c : Char} (h : isJsonWs c = true) : isJsWs c = true := by
  unfold isJsonWs at h
  simp only [Bool.or_eq_true, decide_eq_true_eq] at h
  rcases h with ((h | h) | h) | h <;> subst h <;> decide

theorem digit_not_jsonWs {c : Char} (h : c.isDigit = true) : isJsonWs c = false := by
  cases hws : isJsonWs c
  · rfl
  · rw [jsWs_not_digit (jsonWs_isJsWs hws)] at h
    exact Bool.noConfusion h

theorem dropWhile_head_false {p : Char → Bool} :
    ∀ {l c cs}, List.dropWhile p l = c :: cs → p c = false := by
  intro l
  induction l with
  | nil => intro c cs h; exact absurd h (by simp [List.dropWhile])
  | cons x xs ih =>
    intro c cs h
    rw [List.dropWhile_cons] at h
    by_cases hp : p x
    · rw [if_pos hp] at h
      exact ih h
    · rw [if_neg hp] at h
      cases h
      simpa using hp

theorem jSkipWs_eq_dropWhile (l : List Char) : jSkipWs l = l.dropWhile isJsonWs := by
  induction l with
  | nil => rfl
  | cons x xs ih =>
    rw [List.dropWhile_cons]
    unfold jSkipWs
    by_cases hx : isJsonWs x
    · rw [if_pos hx, if_pos hx, ih]
    · rw [if_neg hx, if_neg hx]

theorem getLast?_dropWhile (p : Char → Bool) (l : List Char)
    (h : l.dropWhile p ≠ []) : (l.dropWhile p).getLast? = l.getLast? := by
  conv_rhs => rw [← List.takeWhile_append_dropWhile p l]
  rw [List.getLast?_append_of_ne_nil _ h]

theorem jTrim_getLast_not_ws (s : String) {x : Char}
    (h : (jTrim s).data.getLast? = some x) : isJsWs x = false := by
  have hd : (jTrim s).data
      = ((s.data.dropWhile isJsWs).reverse.dropWhile isJsWs).reverse := rfl
  rw [hd, List.getLast?_reverse] at h
  cases hl : (s.data.dropWhile isJsWs).reverse.dropWhile isJsWs with
  | nil => rw [hl] at h; exact Option.noConfusion h
  | cons y ys =>
    rw [hl] at h
    injection h with h'
    subst h'
    exact dropWhile_head_false hl

theorem jParseV_digit_head (fu : Nat) (c0 : Char) (cs' : List Char)
    (hc0 : c0.isDigit = true) :
    jParseV (fu + 1) (c0 :: cs') = jParseNumber (c0 :: cs') := by
  have h1 : ¬ c0 = '\x7b' := fun he => by rw [he] at hc0; exact absurd hc0 (by decide)
  have h2 : ¬ c0 = '[' := fun he => by rw [he] at hc0; exact absurd hc0 (by decide)
  have h3 : ¬ c0 = '"' := fun he => by rw [he] at hc0; exact absurd hc0 (by decide)
  have h4 : ¬ c0 = 't' := fun he => by rw [he] at hc0; exact absurd hc0 (by decide)
  have h5 : ¬ c0 = 'f' := fun he => by rw [he] at hc0; exact absurd hc0 (by decide)
  have h6 : ¬ c0 = 'n' := fun he => by rw [he] at hc0; exact absurd hc0 (by decide)
  rw [jParseV]
  simp only [if_neg h1, if_neg h2, if_neg h3, if_neg h4, if_neg h5, if_neg h6]

theorem jParseNumber_digits_ws (c0 : Char) (cs' : List Char) (w : Char) (r' : List Char)
    (hc0 : c0.isDigit = true)
    (hr : (c0 :: cs').dropWhile Char.isDigit = w :: r')
    (hw : isJsWs w = true) :
    jParseNumber (c0 :: cs') = none
    ∨ ∃ v, jParseNumber (c0 :: cs') = some (v, w :: r') := by
  have hm : (match c0 :: cs' with
      | '-' :: t => (true, t)
      | _ => (false, c0 :: cs')) = ((false, c0 :: cs') : Bool × List Char) := by
    split
    · rename_i heq
      injection heq with h1 _
      rw [h1] at hc0
      exact absurd hc0 (by decide)
    · rfl
  have hds : (c0 :: cs').takeWhile Char.isDigit = c0 :: cs'.takeWhile Char.isDigit := by
    rw [List.takeWhile_cons, if_pos hc0]
  have hwdot : ¬ w = '.' := fun he => by rw [he] at hw; exact absurd hw (by decide)
  have hwe : ¬ (w = 'e' ∨ w = 'E') := by
    rintro (he | he) <;> (rw [he] at hw; exact absurd hw (by decide))
  unfold jParseNumber
  rw [hm]
  simp only [hds, hr]
  rw [if_neg (List.cons_ne_nil _ _)]
  by_cases hz : 1 < (c0 :: cs'.takeWhile Char.isDigit).length
      ∧ (c0 :: cs'.takeWhile Char.isDigit).head? = some '0'
  · rw [if_pos hz]
    exact Or.inl rfl
  · rw [if_neg hz]
    refine Or.inr ?_
    split
    · rename_i heq
      injection heq with h1 _
      exact absurd h1 hwdot
    · unfold jParseExpPart
      exact ⟨_, if_neg hwe⟩

theorem jsonParse_none_of_startsDigitsWs (t : String)
    (hlast : ∀ x, t.data.getLast? = some x → isJsWs x = false)
    (hd : startsDigitsWs t.data = true) :
    jsonParse t = none := by
  unfold startsDigitsWs at hd
  cases hr : t.data.dropWhile Char.isDigit with
  | nil => rw [hr] at hd; exact Bool.noConfusion hd
  | cons w r' =>
    rw [hr] at hd
    rw [Bool.and_eq_true] at hd
    obtain ⟨hne', hw⟩ := hd
    have hne : t.data.takeWhile Char.isDigit ≠ [] := by
      intro he
      rw [he] at hne'
      simp at hne'
    cases hcs : t.data with
    | nil =>
      rw [hcs] at hne
      simp [List.takeWhile] at hne
    | cons c0 cs' =>
      have hc0 : c0.isDigit = true := by
        by_contra hcn
        rw [hcs, List.takeWhile_cons, if_neg hcn] at hne
        exact hne rfl
      rw [hcs] at hlast hr
      unfold jsonParse
      have hskip : jSkipWs (c0 :: cs') = c0 :: cs' := by
        rw [jSkipWs_eq_dropWhile, List.dropWhile_cons, if_neg]
        rw [digit_not_jsonWs hc0]
        exact Bool.noConfusion
      rw [hcs, hskip, List.length_cons, jParseV_digit_head _ c0 cs' hc0]
      rcases jParseNumber_digits_ws c0 cs' w r' hc0 hr hw with hnone | ⟨v, hsome⟩
      · rw [hnone]
      · rw [hsome]
        have hnn : jSkipWs (w :: r') ≠ [] := by
          rw [jSkipWs_eq_dropWhile]
          intro hnil
          rw [List.dropWhile_eq_nil_iff] at hnil
          have hlastwr : (w :: r').getLast? = (c0 :: cs').getLast? := by
            rw [← hr]
            exact getLast?_dropWhile _ _ (by rw [hr]; exact List.cons_ne_nil _ _)
          have hglast := List.getLast?_eq_getLast (w :: r') (List.cons_ne_nil _ _)
          have hxmem := List.getLast_mem (l := w :: r') (List.cons_ne_nil _ _)
          have hxws : isJsonWs ((w :: r').getLast (List.cons_ne_nil _ _)) = true :=
            hnil _ hxmem
          have hxnot : isJsWs ((w :: r').getLast (List.cons_ne_nil _ _)) = false :=
            hlast _ (by rw [← hlastwr]; exact hglast)
          rw [jsonWs_isJsWs hxws] at hxnot
          exact Bool.noConfusion hxnot
        exact if_neg hnn

theorem stripDigitsWs_of_not_starts {cs : List Char}
    (h : startsDigitsWs cs = false) : stripDigitsWs cs = cs := by
  unfold startsDigitsWs at h
  unfold stripDigitsWs
  cases hds : cs.takeWhile Char.isDigit with
  | nil =>
    rw [if_pos rfl]
  | cons d ds' =>
    rw [if_neg (List.cons_ne_nil _ _)]
    cases hr : cs.dropWhile Char.isDigit with
    | nil => rfl
    | cons c r' =>
      rw [hr, hds] at h
      simp only [List.isEmpty_cons, Bool.not_false, Bool.true_and] at h
      exact if_neg (fun hcon => by rw [h] at hcon; exact Bool.noConfusion hcon)

theorem startsDigitsWs_zero_cons (c : Char) (rest : List Char)
    (hc : isJsWs c = true) : startsDigitsWs ('0' :: c :: rest) = true := by
  have hcd : c.isDigit = false := jsWs_not_digit hc
  have h0d : ('0' : Char).isDigit = true := by decide
  simp [startsDigitsWs, List.dropWhile_cons, List.takeWhile_cons, h0d, hcd, hc]

theorem stripDigitsWs_zero (c : Char) (rest : List Char) (hc : isJsWs c = true) :
    stripDigitsWs ('0' :: c :: rest) = (c :: rest).dropWhile isJsWs := by
  have hcd : c.isDigit = false := jsWs_not_digit hc
  have h0d : ('0' : Char).isDigit = true := by decide
  simp [stripDigitsWs, List.dropWhile_cons, List.takeWhile_cons, h0d, hcd, hc]

theorem stripZero_cases (cs : List Char) :
    stripZeroWs cs = cs
    ∨ (∃ c rest, cs = '0' :: c :: rest ∧ isJsWs c = true
        ∧ stripZeroWs cs = (c :: rest).dropWhile isJsWs) := by
  rcases cs with _ | ⟨a, _ | ⟨b, rest⟩⟩
  · exact Or.inl rfl
  · left
    unfold stripZeroWs
    split
    · rename_i heq
      injection heq with _ h2
      exact absurd h2 (fun hx => List.noConfusion hx)
    · rfl
  · by_cases ha : a = '0'
    · subst ha
      by_cases hb : isJsWs b = true
      · refine Or.inr ⟨b, rest, rfl, hb, ?_⟩
        show (if isJsWs b = true then (b :: rest).dropWhile isJsWs else '0' :: b :: rest)
            = (b :: rest).dropWhile isJsWs
        exact if_pos hb
      · left
        show (if isJsWs b = true then (b :: rest).dropWhile isJsWs else '0' :: b :: rest)
            = '0' :: b :: rest
        exact if_neg hb
    · left
      unfold stripZeroWs
      split
      · rename_i heq
        injection heq with h1 _
        exact absurd h1 ha
      · rfl

theorem c3_strip_before_decode_amended :
    (∀ text : String, parseProviderBody text
        = jsonParse (String.mk (stripDigitsWs (stripZeroWs (jTrim text).data))))
    ∧ (∀ text : String, doubleStripShape (jTrim text).data = false →
        parseProviderBody text = specOrderedParse text) := by
  constructor
  · intro text
    rfl
  · intro text hshape
    have hmk : String.mk (jTrim text).data = jTrim text := rfl
    by_cases h0 : startsDigitsWs (jTrim text).data = true
    · have hnone : jsonParse (jTrim text) = none :=
        jsonParse_none_of_startsDigitsWs (jTrim text)
          (fun x hx => jTrim_getLast_not_ws text hx) h0
      have hspec : specOrderedParse text
          = jsonParse (String.mk (stripDigitsWs (jTrim text).data)) := by
        show (match jsonParse (jTrim text) with
          | some v => some v
          | none =>
            if startsDigitsWs (jTrim text).data = true
            then jsonParse (String.mk (stripDigitsWs (jTrim text).data)) else none)
          = jsonParse (String.mk (stripDigitsWs (jTrim text).data))
        rw [hnone, if_pos h0]
      rw [hspec]
      show jsonParse (String.mk (stripDigitsWs (stripZeroWs (jTrim text).data))) = _
      rcases stripZero_cases (jTrim text).data with hz | ⟨c, rest, hsh, hc, hz⟩
      · rw [hz]
      · have hu : startsDigitsWs ((c :: rest).dropWhile isJsWs) = false := by
          have hds : doubleStripShape (jTrim text).data
              = (isJsWs c && startsDigitsWs ((c :: rest).dropWhile isJsWs)) := by
            rw [hsh]
            rfl
          rw [hds, hc, Bool.true_and] at hshape
          exact hshape
        have hsd : stripDigitsWs (jTrim text).data = (c :: rest).dropWhile isJsWs := by
          rw [hsh]
          exact stripDigitsWs_zero c rest hc
        rw [hz, stripDigitsWs_of_not_starts hu, hsd]
    · have hb : startsDigitsWs (jTrim text).data = false := by
        cases hq : startsDigitsWs (jTrim text).data
        · rfl
        · exact absurd hq h0
      have hz : stripZeroWs (jTrim text).data = (jTrim text).data := by
        rcases stripZero_cases (jTrim text).data with h | ⟨c, rest, hsh, hc, _⟩
        · exact h
        · exfalso
          rw [hsh, startsDigitsWs_zero_cons c rest hc] at hb
          exact Bool.noConfusion hb
      have hdd : stripDigitsWs (jTrim text).data = (jTrim text).data :=
        stripDigitsWs_of_not_starts hb
      have hspec2 : specOrderedParse text = jsonParse (jTrim text) := by
        show (match jsonParse (jTrim text) with
          | some v => some v
          | none =>
            if startsDigitsWs (jTrim text).data = true
            then jsonParse (String.mk (stripDigitsWs (jTrim text).data)) else none)
          = jsonParse (jTrim text)
        cases hj : jsonParse (jTrim text) with
        | some v => rfl
        | none =>
          exact if_neg (fun hcon => by rw [hb] at hcon; exact Bool.noConfusion hcon)
      show jsonParse (String.mk (stripDigitsWs (stripZeroWs (jTrim text).data)))
          = specOrderedParse text
      rw [hz, hdd, hmk, hspec2]

/-- C3 amended witness: on a plain prose body the code's parse agrees with
the claimed ordered parse. -/
theorem c3_strip_before_decode_amended_witness :
    parseProviderBody "Internal Server Error"
      = specOrderedParse "Internal Server Error" :=
  c3_strip_before_decode_amended.2 "Internal Server Error" rfl
